import Mathlib

/-!
Verification of the MCP snippet tool server (`src/function_app.py`).

The development shallow-embeds the handlers `save_snippet`, `get_snippet`,
`search_snippets` and the helpers `list_all_snippets`, `calculate_similarity`
as pure Lean functions.  External collaborators are made explicit:

* the blob store is a list of `(blob key, decoded content)` pairs;
* the tool arguments (`content["arguments"]` in the Python source) are an
  association list; a lookup of an absent key models Python's `KeyError`;
* the embedding service and the numeric type of similarity scores are
  parameters (`embed`, `sim`, `α`), matching the spec's instruction to treat
  the embedding call as an injected opaque dependency; float arithmetic is
  modeled by a linear ordered field (instantiated at `ℚ` for executable
  witnesses and at `ℝ` for the cosine-similarity scorer);
* a `Python exception escaping the handler` is the `Except.error` case, while
  a string returned to the MCP client is the `Except.ok` case;
* external calls performed during a search are recorded in an `Effect` trace
  so that claims about calls never attempted can be stated.
-/

namespace McpSnippets

/-- A Python exception escaping or aborting a handler: either a `KeyError`
raised by an absent argument key, or a failure of an upstream collaborator
(storage or embedding service). -/
inductive PyExc where
  | keyError (key : String)
  | upstream (msg : String)
deriving DecidableEq

/-- The `str(e)` text used when an exception is serialized into the
`error`-shaped JSON payload. -/
def PyExc.message : PyExc → String
  | .keyError k => "\x27" ++ k ++ "\x27"
  | .upstream m => m

/-- Lookup of `content["arguments"][k]`: the first binding of the key wins
(the arguments object is a JSON map), and an absent key raises `KeyError`. -/
def lookupArg (args : List (String × String)) (k : String) : Except PyExc String :=
  match args.find? (fun kv => kv.1 == k) with
  | some kv => Except.ok kv.2
  | none => Except.error (PyExc.keyError k)

/-- The blob container content: `(blob key, UTF-8 decoded blob content)`
pairs, in enumeration order. -/
abbrev BlobStore := List (String × String)

/-- Upload of a blob: overwrites the value of an existing key in place,
otherwise appends a new blob. -/
def blobPut (store : BlobStore) (key content : String) : BlobStore :=
  match store with
  | [] => [(key, content)]
  | kv :: rest =>
    if kv.1 == key then (key, content) :: rest else kv :: blobPut rest key content

/-- Read of a blob by key, `none` when the blob does not exist. -/
def blobGet (store : BlobStore) (key : String) : Option String :=
  (store.find? (fun kv => kv.1 == key)).map (fun kv => kv.2)

/-- The blob path template `snippets/{mcptoolargs.snippetname}.json`
resolved at a concrete snippet name. -/
def snippetBlobKey (name : String) : String := "snippets/" ++ name ++ ".json"

/-- Decidable equality of handler results, used to evaluate the model on
concrete inputs. -/
instance {ε β : Type} [DecidableEq ε] [DecidableEq β] : DecidableEq (Except ε β) := fun a b =>
  match a, b with
  | .error x, .error y =>
    if h : x = y then isTrue (by rw [h]) else isFalse (fun hc => h (by cases hc; rfl))
  | .error _, .ok _ => isFalse (fun hc => Except.noConfusion hc)
  | .ok _, .error _ => isFalse (fun hc => Except.noConfusion hc)
  | .ok x, .ok y =>
    if h : x = y then isTrue (by rw [h]) else isFalse (fun hc => h (by cases hc; rfl))

/-- Result of one `save_snippet` invocation: the string handed back to the
client (or the exception that escaped) together with the blob store after the
invocation. -/
structure SaveOutcome where
  reply : Except PyExc String
  store : BlobStore
deriving DecidableEq

/-- The `save_snippet` handler: reads both arguments (an absent key raises
`KeyError` before any emptiness check), rejects an empty name and then an
empty content with a plain message without writing, and otherwise writes the
content through the blob output binding and confirms interpolating the
snippet content. -/
def save_snippet (store : BlobStore) (args : List (String × String)) : SaveOutcome :=
  match lookupArg args "snippetname" with
  | .error e => ⟨Except.error e, store⟩
  | .ok name =>
    match lookupArg args "snippet" with
    | .error e => ⟨Except.error e, store⟩
    | .ok content =>
      if name = "" then ⟨Except.ok "No snippet name provided", store⟩
      else if content = "" then ⟨Except.ok "No snippet content provided", store⟩
      else
        ⟨Except.ok ("Snippet \x27" ++ content ++ "\x27 saved successfully"),
         blobPut store (snippetBlobKey name) content⟩

/-- The `get_snippet` handler together with its blob input binding: the host
resolves the path `snippets/{name}.json` and reads the blob (a missing blob is
an upstream binding failure), and the function body returns the decoded
content unchanged. -/
def get_snippet (store : BlobStore) (args : List (String × String)) : Except PyExc String :=
  match lookupArg args "snippetname" with
  | .error e => Except.error e
  | .ok name =>
    match blobGet store (snippetBlobKey name) with
    | some content => Except.ok content
    | none => Except.error (PyExc.upstream "blob not found")

/-- The call `blob.name.replace(".json", "")` at its fixed arguments: removes
every leftmost-first, non-overlapping occurrence of `.json` from the list of
characters. -/
def stripJson : List Char → List Char
  | '.' :: 'j' :: 's' :: 'o' :: 'n' :: rest => stripJson rest
  | c :: rest => c :: stripJson rest
  | [] => []

/-- The snippet name reported for a blob key. -/
def snippetNameOfKey (key : String) : String := String.mk (stripJson key.toList)

/-- The helper `list_all_snippets`: enumerates the blobs of the `snippets`
container and pairs each derived snippet name with the decoded blob
content. -/
def list_all_snippets (store : BlobStore) : List (String × String) :=
  store.map (fun b => (snippetNameOfKey b.1, b.2))

/-- The preview built by the search loop:
`snippet_content[:100] + "..." if len(snippet_content) > 100 else snippet_content`. -/
def previewOf (content : String) : String :=
  if content.length > 100 then String.mk (content.toList.take 100) ++ "..." else content

/-- One entry of the `results` array built by `search_snippets`:
`{"name": ..., "preview": ..., "similarity": ...}`.  The numeric type of the
similarity score is a parameter standing for the Python float. -/
structure ScoredResult (α : Type) where
  name : String
  preview : String
  similarity : α
deriving DecidableEq

/-- An external call performed during a search invocation, recorded in
program order: the container enumeration done by `list_all_snippets`, or one
embedding-service call for one text. -/
inductive Effect where
  | listBlobs
  | embedCall (text : String)
deriving DecidableEq

/-- The three JSON response shapes a search can serialize. -/
inductive SearchResponse (α : Type) where
  | ok (results : List (ScoredResult α))
  | emptyCorpus (message : String)
  | err (message : String)
deriving DecidableEq

/-- The per-snippet loop of `search_snippets`: embeds each snippet content in
corpus order, scores it against the query embedding, and keeps a result
exactly when the similarity is strictly greater than `0.7`; the first
embedding failure aborts the loop (fail-fast).  Returns the kept results in
corpus order together with the trace of embedding calls attempted. -/
def scoreSnippets {α E : Type} [LinearOrderedField α]
    (embed : String → Except PyExc E) (sim : E → E → α) (qe : E) :
    List (String × String) → Except PyExc (List (ScoredResult α)) × List Effect
  | [] => (Except.ok [], [])
  | (name, content) :: rest =>
    match embed content with
    | .error e => (Except.error e, [Effect.embedCall content])
    | .ok se =>
      let s := sim qe se
      match scoreSnippets embed sim qe rest with
      | (res, tr) =>
        (res.map (fun tail =>
            if s > 7 / 10 then ScoredResult.mk name (previewOf content) s :: tail else tail),
         Effect.embedCall content :: tr)

/-- Stable descending insertion: the new result is placed after every
already-placed result of strictly greater similarity and before the first one
of smaller or equal similarity. -/
def insertDesc {α : Type} [LinearOrder α] (r : ScoredResult α) :
    List (ScoredResult α) → List (ScoredResult α)
  | [] => [r]
  | x :: xs => if x.similarity ≤ r.similarity then r :: x :: xs else x :: insertDesc r xs

/-- The model of `results.sort(key=lambda x: x["similarity"], reverse=True)`:
a stable sort by similarity descending.  Python's `list.sort` is guaranteed
stable and `reverse=True` preserves the original order of equal keys, and a
stable sort's output is uniquely determined by those two properties, so this
insertion sort computes exactly the list the source produces. -/
def sortDesc {α : Type} [LinearOrder α] : List (ScoredResult α) → List (ScoredResult α)
  | [] => []
  | x :: xs => insertDesc x (sortDesc xs)

/-- The `search_snippets` handler.  `loadCorpus` is the outcome of the
storage interaction of `list_all_snippets` (the raw `(key, content)` pairs,
or the storage exception); `embed` is the outcome of one embedding-service
call per text; `sim` abstracts `calculate_similarity` on embedding values.
The argument lookup happens before the `try` block, so its `KeyError`
escapes uncaught; every failure after it is caught and serialized as the
`error` shape. -/
def search_snippets {α E : Type} [LinearOrderedField α]
    (loadCorpus : Except PyExc BlobStore)
    (embed : String → Except PyExc E) (sim : E → E → α)
    (args : List (String × String)) :
    Except PyExc (SearchResponse α) × List Effect :=
  match lookupArg args "query" with
  | .error e => (Except.error e, [])
  | .ok q =>
    if q = "" then (Except.ok (SearchResponse.err "No search query provided"), [])
    else
      match loadCorpus with
      | .error e => (Except.ok (SearchResponse.err e.message), [Effect.listBlobs])
      | .ok store =>
        let snippets := list_all_snippets store
        if snippets = [] then
          (Except.ok (SearchResponse.emptyCorpus "No snippets found to search"),
           [Effect.listBlobs])
        else
          match embed q with
          | .error e =>
            (Except.ok (SearchResponse.err e.message),
             [Effect.listBlobs, Effect.embedCall q])
          | .ok qe =>
            match scoreSnippets embed sim qe snippets with
            | (.error e, tr) =>
              (Except.ok (SearchResponse.err e.message),
               Effect.listBlobs :: Effect.embedCall q :: tr)
            | (.ok res, tr) =>
              (Except.ok (SearchResponse.ok (sortDesc res)),
               Effect.listBlobs :: Effect.embedCall q :: tr)

noncomputable section

/-- The dot product `np.dot` on embedding vectors, over the reals modelling
Python floats. -/
def dotProd (a b : List ℝ) : ℝ := (List.zipWith (fun x y => x * y) a b).sum

/-- The Euclidean norm `np.linalg.norm`. -/
def vecNorm (a : List ℝ) : ℝ := Real.sqrt (dotProd a a)

/-- The helper `calculate_similarity`: cosine similarity
`np.dot(q, s) / (np.linalg.norm(q) * np.linalg.norm(s))`. -/
def calculate_similarity (q s : List ℝ) : ℝ := dotProd q s / (vecNorm q * vecNorm s)

end

/-! Concrete fixtures used to evaluate the model: a four-blob store, a stub
embedding provider and a stub scorer over `ℚ` (the spec directs tests to
replace the opaque embedding call by a deterministic stub).  The stub scores
put `alpha` and `gamma` in a tie at `4/5`, `beta` above them at `9/10`, and
`delta` below the `0.7` threshold at `1/2`. -/

/-- Fixture blob store with four snippets. -/
def wStore : BlobStore :=
  [("a.json", "alpha doc"), ("b.json", "beta doc"),
   ("c.json", "gamma doc"), ("d.json", "delta doc")]

/-- Fixture embedding stub: every call succeeds with a small rational code. -/
def wEmbed : String → Except PyExc ℚ := fun t =>
  if t = "q" then Except.ok 1
  else if t = "alpha doc" then Except.ok 2
  else if t = "beta doc" then Except.ok 3
  else if t = "gamma doc" then Except.ok 4
  else Except.ok 0

/-- Fixture similarity stub keyed on the snippet embedding code. -/
def wSim : ℚ → ℚ → ℚ := fun _ b =>
  if b = 2 then 4 / 5 else if b = 3 then 9 / 10 else if b = 4 then 4 / 5 else 1 / 2

/-- Fixture search arguments. -/
def wArgs : List (String × String) := [("query", "q")]

/-- The kept results of the fixture search in corpus order (before sorting). -/
def wKept : List (ScoredResult ℚ) :=
  [⟨"a", "alpha doc", 4 / 5⟩, ⟨"b", "beta doc", 9 / 10⟩, ⟨"c", "gamma doc", 4 / 5⟩]

/-- The fixture search results as returned: sorted descending, the `4/5` tie
between `a` and `c` kept in corpus order. -/
def wResults : List (ScoredResult ℚ) :=
  [⟨"b", "beta doc", 9 / 10⟩, ⟨"a", "alpha doc", 4 / 5⟩, ⟨"c", "gamma doc", 4 / 5⟩]

/-- The external-call trace of the fixture search. -/
def wTrace : List Effect :=
  [Effect.listBlobs, Effect.embedCall "q", Effect.embedCall "alpha doc",
   Effect.embedCall "beta doc", Effect.embedCall "gamma doc", Effect.embedCall "delta doc"]

/-- The external-call trace of the scoring loop alone on the fixture corpus. -/
def wScoreTrace : List Effect :=
  [Effect.embedCall "alpha doc", Effect.embedCall "beta doc",
   Effect.embedCall "gamma doc", Effect.embedCall "delta doc"]

/-- A 150-character content used to exercise the preview truncation. -/
def wLongContent : String := String.mk (List.replicate 150 'a')

/-- The descending order between two scored results, as a named relation so
that sortedness can be stated on adjacent pairs. -/
def simGE {α : Type} [LinearOrder α] (a b : ScoredResult α) : Prop :=
  b.similarity ≤ a.similarity

/-- Boolean test that a result carries a given similarity value, used to
state the stable tie-break. -/
def hasSim {α : Type} [DecidableEq α] (s : α) (r : ScoredResult α) : Bool :=
  r.similarity = s

/-- Whether a handler outcome is a string handed to the client (`true`) or an
exception escaping the handler (`false`). -/
def isOkB {ε β : Type} : Except ε β → Bool
  | .ok _ => true
  | .error _ => false

section Lemmas

variable {α E : Type} [LinearOrderedField α]

theorem blobGet_blobPut (store : BlobStore) (key content : String) :
    blobGet (blobPut store key content) key = some content := by
  induction store with
  | nil => simp [blobPut, blobGet, List.find?]
  | cons kv rest ih =>
    by_cases h : kv.1 == key
    · simp [blobPut, h, blobGet, List.find?]
    · simp only [blobPut, h, Bool.false_eq_true, if_false]
      simpa [blobGet, List.find?, h] using ih

theorem scoreSnippets_threshold (embed : String → Except PyExc E) (sim : E → E → α) (qe : E) :
    ∀ (corpus : List (String × String)) (kept : List (ScoredResult α)) (tr : List Effect),
      scoreSnippets embed sim qe corpus = (Except.ok kept, tr) →
      ∀ r ∈ kept, (7 : α) / 10 < r.similarity := by
  intro corpus
  induction corpus with
  | nil =>
    intro kept tr h r hr
    simp only [scoreSnippets, Prod.mk.injEq, Except.ok.injEq] at h
    obtain ⟨h1, _⟩ := h
    subst h1
    simp at hr
  | cons p rest ih =>
    intro kept tr h r hr
    obtain ⟨name, content⟩ := p
    rw [scoreSnippets] at h
    cases hec : embed content with
    | error e => rw [hec] at h; simp at h
    | ok se =>
      rw [hec] at h
      cases hrec : scoreSnippets embed sim qe rest with
      | mk res tr1 =>
        rw [hrec] at h
        cases res with
        | error e => simp [Except.map] at h
        | ok l =>
          simp only [Except.map, Prod.mk.injEq, Except.ok.injEq] at h
          obtain ⟨h1, _⟩ := h
          by_cases hs : sim qe se > 7 / 10
          · rw [if_pos hs] at h1
            subst h1
            rw [List.mem_cons] at hr
            cases hr with
            | inl he => subst he; exact hs
            | inr hm => exact ih l tr1 hrec r hm
          · rw [if_neg hs] at h1
            subst h1
            exact ih l tr1 hrec r hr

end Lemmas

section SortLemmas

variable {α : Type} [LinearOrder α]

theorem insertDesc_perm (r : ScoredResult α) (l : List (ScoredResult α)) :
    List.Perm (insertDesc r l) (r :: l) := by
  induction l with
  | nil => simp [insertDesc]
  | cons x xs ih =>
    by_cases h : x.similarity ≤ r.similarity
    · rw [insertDesc, if_pos h]
    · rw [insertDesc, if_neg h]
      exact (ih.cons x).trans (List.Perm.swap r x xs)

theorem sortDesc_perm (l : List (ScoredResult α)) : List.Perm (sortDesc l) l := by
  induction l with
  | nil => simp [sortDesc]
  | cons x xs ih => exact (insertDesc_perm x (sortDesc xs)).trans (ih.cons x)

theorem insertDesc_pairwise (r : ScoredResult α) (l : List (ScoredResult α))
    (hl : List.Pairwise simGE l) : List.Pairwise simGE (insertDesc r l) := by
  induction l with
  | nil => simp [insertDesc, simGE]
  | cons x xs ih =>
    rcases List.pairwise_cons.mp hl with ⟨hx, hxs⟩
    by_cases h : x.similarity ≤ r.similarity
    · rw [insertDesc, if_pos h]
      refine List.pairwise_cons.mpr ⟨?_, hl⟩
      intro y hy
      rw [List.mem_cons] at hy
      cases hy with
      | inl he => subst he; exact h
      | inr hm => exact le_trans (hx y hm) h
    · rw [insertDesc, if_neg h]
      refine List.pairwise_cons.mpr ⟨?_, ih hxs⟩
      intro y hy
      have hy1 := (insertDesc_perm r xs).mem_iff.mp hy
      rw [List.mem_cons] at hy1
      cases hy1 with
      | inl he => subst he; exact le_of_not_le h
      | inr hm => exact hx y hm

theorem sortDesc_pairwise (l : List (ScoredResult α)) :
    List.Pairwise simGE (sortDesc l) := by
  induction l with
  | nil => simp [sortDesc]
  | cons x xs ih => exact insertDesc_pairwise x (sortDesc xs) ih

theorem insertDesc_filter (s : α) (r : ScoredResult α) (l : List (ScoredResult α)) :
    List.filter (hasSim s) (insertDesc r l) =
      if r.similarity = s then r :: List.filter (hasSim s) l
      else List.filter (hasSim s) l := by
  induction l with
  | nil => by_cases h : r.similarity = s <;> simp [insertDesc, List.filter, hasSim, h]
  | cons x xs ih =>
    by_cases h : x.similarity ≤ r.similarity
    · rw [insertDesc, if_pos h]
      by_cases hr : r.similarity = s <;> simp [List.filter_cons, hasSim, hr]
    · have hgt : r.similarity < x.similarity := lt_of_not_le h
      rw [insertDesc, if_neg h]
      by_cases hx : x.similarity = s
      · have hr : r.similarity ≠ s := by rw [← hx]; exact ne_of_lt hgt
        simp [List.filter_cons, hasSim, hx, hr, ih]
      · by_cases hr : r.similarity = s <;>
          simp [List.filter_cons, hasSim, hx, hr, ih]

theorem sortDesc_filter (s : α) (l : List (ScoredResult α)) :
    List.filter (hasSim s) (sortDesc l) = List.filter (hasSim s) l := by
  induction l with
  | nil => simp [sortDesc]
  | cons x xs ih =>
    rw [sortDesc, insertDesc_filter]
    by_cases hx : x.similarity = s <;> simp [List.filter_cons, hasSim, hx, ih]

end SortLemmas

/-- Inversion of a successful search: a `results`-shaped response can only
arise with a present non-empty query, a successful corpus load, a successful
query embedding, a fully successful scoring loop, and the returned list is
the descending stable sort of the kept results. -/
theorem search_ok_inv {α E : Type} [LinearOrderedField α]
    (loadC : Except PyExc BlobStore) (embed : String → Except PyExc E)
    (sim : E → E → α) (args : List (String × String))
    (rs : List (ScoredResult α)) (tr : List Effect)
    (hs : search_snippets loadC embed sim args = (Except.ok (SearchResponse.ok rs), tr)) :
    ∃ q store qe kept tr1,
      lookupArg args "query" = Except.ok q ∧ q ≠ "" ∧ loadC = Except.ok store ∧
      embed q = Except.ok qe ∧
      scoreSnippets embed sim qe (list_all_snippets store) = (Except.ok kept, tr1) ∧
      rs = sortDesc kept := by
  rw [search_snippets] at hs
  cases hq : lookupArg args "query" with
  | error e => rw [hq] at hs; simp at hs
  | ok q =>
    rw [hq] at hs
    dsimp only at hs
    by_cases h0 : q = ""
    · rw [if_pos h0] at hs; simp at hs
    · rw [if_neg h0] at hs
      cases loadC with
      | error e => simp at hs
      | ok store =>
        dsimp only at hs
        by_cases hemp : list_all_snippets store = []
        · rw [if_pos hemp] at hs; simp at hs
        · rw [if_neg hemp] at hs
          cases he : embed q with
          | error e => rw [he] at hs; simp at hs
          | ok qe =>
            rw [he] at hs
            dsimp only at hs
            cases hsc : scoreSnippets embed sim qe (list_all_snippets store) with
            | mk res tr1 =>
              rw [hsc] at hs
              cases res with
              | error e => simp at hs
              | ok kept =>
                simp only [Prod.mk.injEq, Except.ok.injEq, SearchResponse.ok.injEq] at hs
                exact ⟨q, store, qe, kept, tr1, rfl, h0, rfl, he, hsc, hs.1.symm⟩

theorem dotProd_self_nonneg (v : List ℝ) : 0 ≤ dotProd v v := by
  induction v with
  | nil => simp [dotProd]
  | cons x xs ih =>
    have h : dotProd (x :: xs) (x :: xs) = x * x + dotProd xs xs := by
      simp [dotProd, List.zipWith]
    rw [h]
    exact add_nonneg (mul_self_nonneg x) ih

/-- C8: for every vector of non-zero norm, the cosine similarity of the
vector with itself as computed by `calculate_similarity` is exactly `1`
(the floating-point computation is modelled over the reals). -/
theorem calculate_similarity_self (v : List ℝ) (h : vecNorm v ≠ 0) :
    calculate_similarity v v = 1 := by
  have hnn := dotProd_self_nonneg v
  have hsq : vecNorm v * vecNorm v = dotProd v v := Real.mul_self_sqrt hnn
  have hne : dotProd v v ≠ 0 := by
    intro h0
    apply h
    rw [vecNorm, h0, Real.sqrt_zero]
  rw [calculate_similarity, hsq, div_self hne]

/-- Witness for C8 at the one-dimensional vector `[1]`. -/
theorem calculate_similarity_self_witness :
    vecNorm [(1 : ℝ)] ≠ 0 ∧ calculate_similarity [(1 : ℝ)] [(1 : ℝ)] = 1 := by
  have hd : dotProd [(1 : ℝ)] [(1 : ℝ)] = 1 := by simp [dotProd]
  have h : vecNorm [(1 : ℝ)] ≠ 0 := by
    rw [vecNorm, hd, Real.sqrt_one]
    exact one_ne_zero
  exact ⟨h, calculate_similarity_self [(1 : ℝ)] h⟩

/-- C1: every item of a `results`-shaped search response has similarity
strictly greater than the fixed threshold `0.7`; no item scoring at or below
the threshold is ever included (the result's `similarity` field is, by the
scoring loop, the computed similarity of that corpus item against the query
embedding). -/
theorem search_results_above_threshold {α E : Type} [LinearOrderedField α]
    (loadC : Except PyExc BlobStore) (embed : String → Except PyExc E)
    (sim : E → E → α) (args : List (String × String))
    (rs : List (ScoredResult α)) (tr : List Effect) (r : ScoredResult α)
    (hs : search_snippets loadC embed sim args = (Except.ok (SearchResponse.ok rs), tr))
    (hr : r ∈ rs) : (7 : α) / 10 < r.similarity := by
  obtain ⟨q, store, qe, kept, tr1, _, _, _, he, hsc, hrs⟩ :=
    search_ok_inv loadC embed sim args rs tr hs
  subst hrs
  have hmem : r ∈ kept := (sortDesc_perm kept).mem_iff.mp hr
  exact scoreSnippets_threshold embed sim qe (list_all_snippets store) kept tr1 hsc r hmem

/-- Witness for C1 on the fixture corpus. -/
theorem search_results_above_threshold_witness :
    (7 : ℚ) / 10 < (ScoredResult.mk "b" "beta doc" ((9 : ℚ) / 10)).similarity :=
  search_results_above_threshold (Except.ok wStore) wEmbed wSim wArgs wResults wTrace
    (ScoredResult.mk "b" "beta doc" ((9 : ℚ) / 10))
    (by with_unfolding_all decide) (by with_unfolding_all decide)

/-- C2: a `results`-shaped search response is the stable descending sort of
the kept results: adjacent entries are ordered by similarity descending, and
for every similarity value the entries carrying it appear in the original
corpus enumeration order (the order of the kept list). -/
theorem search_results_sorted_stable {α E : Type} [LinearOrderedField α]
    (embed : String → Except PyExc E) (sim : E → E → α)
    (args : List (String × String)) (q : String) (store : BlobStore) (qe : E)
    (kept : List (ScoredResult α)) (tr1 : List Effect)
    (hq : lookupArg args "query" = Except.ok q) (h0 : q ≠ "") (hst : store ≠ [])
    (he : embed q = Except.ok qe)
    (hsc : scoreSnippets embed sim qe (list_all_snippets store) = (Except.ok kept, tr1)) :
    (search_snippets (Except.ok store) embed sim args).1 =
      Except.ok (SearchResponse.ok (sortDesc kept)) ∧
    List.Chain' simGE (sortDesc kept) ∧
    ∀ s : α, List.filter (hasSim s) (sortDesc kept) = List.filter (hasSim s) kept := by
  refine ⟨?_, (sortDesc_pairwise kept).chain', fun s => sortDesc_filter s kept⟩
  rw [search_snippets, hq]
  dsimp only
  rw [if_neg h0]
  have hemp : list_all_snippets store ≠ [] := by
    simp [list_all_snippets, hst]
  rw [if_neg hemp, he]
  dsimp only
  rw [hsc]

/-- Witness for C2 on the fixture corpus, checking the tie at `4/5` between
the first and third snippet stays in corpus order. -/
theorem search_results_sorted_stable_witness :
    (search_snippets (Except.ok wStore) wEmbed wSim wArgs).1 =
      Except.ok (SearchResponse.ok (sortDesc wKept)) ∧
    List.Chain' simGE (sortDesc wKept) ∧
    List.filter (hasSim ((4 : ℚ) / 5)) (sortDesc wKept) =
      List.filter (hasSim ((4 : ℚ) / 5)) wKept := by
  have h := search_results_sorted_stable wEmbed wSim wArgs "q" wStore 1 wKept wScoreTrace
    (by rfl) (by decide) (by decide) (by rfl) (by with_unfolding_all decide)
  exact ⟨h.1, h.2.1, h.2.2 ((4 : ℚ) / 5)⟩

/-- C3: the preview attached to every result by the scoring loop obeys the
truncation rule: content of length at most 100 is kept whole; longer content
is cut to its first 100 characters plus the three-character ellipsis, for a
preview of length exactly 103. -/
theorem previewOf_spec (content : String) :
    (content.length ≤ 100 → previewOf content = content) ∧
    (100 < content.length →
      previewOf content = String.mk (content.toList.take 100) ++ "..." ∧
      (previewOf content).length = 103) := by
  constructor
  · intro h
    rw [previewOf, if_neg (by omega)]
  · intro h
    rw [previewOf, if_pos h]
    refine ⟨rfl, ?_⟩
    have h1 : (String.mk (content.toList.take 100)).length = (content.toList.take 100).length := rfl
    have h2 : content.toList.length = content.length := rfl
    have h3 : ("..." : String).length = 3 := rfl
    rw [String.length_append, h1, h3, List.length_take, h2]
    omega

/-- Witness for C3 at a short and at a 150-character content. -/
theorem previewOf_spec_witness :
    previewOf "hi" = "hi" ∧
    (previewOf wLongContent = String.mk (wLongContent.toList.take 100) ++ "..." ∧
      (previewOf wLongContent).length = 103) :=
  ⟨(previewOf_spec "hi").1 (by decide),
   (previewOf_spec wLongContent).2 (by
      show 100 < (List.replicate 150 'a').length
      rw [List.length_replicate]
      omega)⟩

/-- C4 counterexample: a search invocation whose arguments lack the `query`
key raises an uncaught `KeyError` — the failure happens before the `try`
block, so it is not converted to an error-shaped payload and the invocation
crashes instead of returning one of the three response shapes. -/
theorem search_missing_query_uncaught :
    (search_snippets (Except.ok wStore) wEmbed wSim []).1 =
      Except.error (PyExc.keyError "query") ∧
    isOkB (search_snippets (Except.ok wStore) wEmbed wSim []).1 = false :=
  ⟨rfl, rfl⟩

/-- C4 (amended): for every search invocation whose arguments do contain the
`query` key, every failure after argument extraction is caught and converted
to a payload, and the invocation hands a response string back to the client —
exactly one of the three `SearchResponse` shapes, never an uncaught
exception. -/
theorem search_with_query_no_crash {α E : Type} [LinearOrderedField α]
    (loadC : Except PyExc BlobStore) (embed : String → Except PyExc E)
    (sim : E → E → α) (args : List (String × String)) (q : String)
    (hq : lookupArg args "query" = Except.ok q) :
    isOkB (search_snippets loadC embed sim args).1 = true := by
  rw [search_snippets, hq]
  dsimp only
  by_cases h0 : q = ""
  · rw [if_pos h0]; rfl
  · rw [if_neg h0]
    cases loadC with
    | error e => rfl
    | ok store =>
      dsimp only
      by_cases hemp : list_all_snippets store = []
      · rw [if_pos hemp]; rfl
      · rw [if_neg hemp]
        cases he : embed q with
        | error e => rfl
        | ok qe =>
          dsimp only
          cases hsc : scoreSnippets embed sim qe (list_all_snippets store) with
          | mk res tr1 =>
            cases res with
            | error e => rfl
            | ok kept => rfl

/-- Witness for the amended C4 on the fixture invocation. -/
theorem search_with_query_no_crash_witness :
    isOkB (search_snippets (Except.ok wStore) wEmbed wSim wArgs).1 = true :=
  search_with_query_no_crash (Except.ok wStore) wEmbed wSim wArgs "q" (by rfl)

/-- C5 counterexample: a save invocation whose arguments lack the `snippet`
key raises an uncaught `KeyError` instead of returning a descriptive
error-shaped result, so the claim fails for absent required arguments. -/
theorem save_missing_content_uncaught :
    (save_snippet [] [("snippetname", "n")]).reply =
      Except.error (PyExc.keyError "snippet") := rfl

/-- C5 (amended): a required argument that is present but equal to the empty
string yields a descriptive error-shaped result — for search the payload
`No search query provided` with no storage or embedding call attempted, for
save the matching plain message with the blob store left unchanged (no
write); an absent required argument instead raises an uncaught `KeyError`. -/
theorem empty_argument_error_result {α E : Type} [LinearOrderedField α]
    (loadC : Except PyExc BlobStore) (embed : String → Except PyExc E)
    (sim : E → E → α) (args : List (String × String)) (store : BlobStore) (n c : String) :
    (lookupArg args "query" = Except.ok "" →
      search_snippets loadC embed sim args =
        (Except.ok (SearchResponse.err "No search query provided"), [])) ∧
    (lookupArg args "snippetname" = Except.ok "" → lookupArg args "snippet" = Except.ok c →
      save_snippet store args = ⟨Except.ok "No snippet name provided", store⟩) ∧
    (lookupArg args "snippetname" = Except.ok n → n ≠ "" →
      lookupArg args "snippet" = Except.ok "" →
      save_snippet store args = ⟨Except.ok "No snippet content provided", store⟩) := by
  refine ⟨?_, ?_, ?_⟩
  · intro hq
    rw [search_snippets, hq]
    rfl
  · intro hn hc
    rw [save_snippet, hn, hc]
    rfl
  · intro hn h0 hc
    rw [save_snippet, hn, hc]
    dsimp only
    rw [if_neg h0]
    rfl

/-- Witness for the amended C5 at three concrete invocations. -/
theorem empty_argument_error_result_witness :
    search_snippets (Except.ok wStore) wEmbed wSim [("query", "")] =
      (Except.ok (SearchResponse.err "No search query provided"), []) ∧
    save_snippet wStore [("snippetname", ""), ("snippet", "x")] =
      ⟨Except.ok "No snippet name provided", wStore⟩ ∧
    save_snippet wStore [("snippetname", "n"), ("snippet", "")] =
      ⟨Except.ok "No snippet content provided", wStore⟩ :=
  ⟨(empty_argument_error_result (Except.ok wStore) wEmbed wSim
      [("query", "")] wStore "n" "x").1 (by rfl),
   (empty_argument_error_result (Except.ok wStore) wEmbed wSim
      [("snippetname", ""), ("snippet", "x")] wStore "n" "x").2.1 (by rfl) (by rfl),
   (empty_argument_error_result (Except.ok wStore) wEmbed wSim
      [("snippetname", "n"), ("snippet", "")] wStore "n" "x").2.2 (by rfl)
      (by decide) (by rfl)⟩

/-- C6: a search with a present non-empty query over an empty corpus returns
exactly the `results: [], message: No snippets found to search` shape (not an
error), and the trace shows the corpus enumeration as the only external call:
no embedding is attempted for the query or any snippet. -/
theorem empty_corpus_message_response {α E : Type} [LinearOrderedField α]
    (embed : String → Except PyExc E) (sim : E → E → α)
    (args : List (String × String)) (q : String)
    (hq : lookupArg args "query" = Except.ok q) (h0 : q ≠ "") :
    search_snippets (Except.ok ([] : BlobStore)) embed sim args =
      (Except.ok (SearchResponse.emptyCorpus "No snippets found to search"),
       [Effect.listBlobs]) := by
  rw [search_snippets, hq]
  dsimp only
  rw [if_neg h0]
  rfl

/-- Witness for C6 on the fixture query. -/
theorem empty_corpus_message_response_witness :
    search_snippets (Except.ok ([] : BlobStore)) wEmbed wSim wArgs =
      (Except.ok (SearchResponse.emptyCorpus "No snippets found to search"),
       [Effect.listBlobs]) :=
  empty_corpus_message_response wEmbed wSim wArgs "q" (by rfl) (by decide)

/-- C7 counterexample: with the empty content, the save is refused before any
write, so the following get does not return the empty content — the
round-trip fails for the empty string, against the claim's quantification
over every content string. -/
theorem save_empty_content_roundtrip_fails :
    get_snippet (save_snippet [] [("snippetname", "n"), ("snippet", "")]).store
        [("snippetname", "n")] ≠ Except.ok "" := by decide

/-- C7 (amended): for every non-empty snippet name and non-empty content,
saving and then getting under that name returns exactly the saved content. -/
theorem save_get_roundtrip (store : BlobStore) (n c : String)
    (hn : n ≠ "") (hc : c ≠ "") :
    get_snippet (save_snippet store [("snippetname", n), ("snippet", c)]).store
        [("snippetname", n)] = Except.ok c := by
  have hl1 : lookupArg [("snippetname", n), ("snippet", c)] "snippetname" =
      Except.ok n := rfl
  have hl2 : lookupArg [("snippetname", n), ("snippet", c)] "snippet" =
      Except.ok c := rfl
  rw [save_snippet, hl1, hl2]
  dsimp only
  rw [if_neg hn, if_neg hc]
  have hl3 : lookupArg [("snippetname", n)] "snippetname" = Except.ok n := rfl
  rw [get_snippet, hl3]
  dsimp only
  rw [blobGet_blobPut]

/-- Witness for the amended C7 at a concrete name and content. -/
theorem save_get_roundtrip_witness :
    get_snippet (save_snippet [] [("snippetname", "n"), ("snippet", "c")]).store
        [("snippetname", "n")] = Except.ok "c" :=
  save_get_roundtrip [] "n" "c" (by decide) (by decide)

/-- C9: the corpus loader reports a blob under the key with every occurrence
of `.json` removed — also occurrences in the middle of the key, not only a
trailing extension: the key `a.json.b.json` is reported as `a.b`, and the
ordinary key `notes.json` as `notes`. -/
theorem snippet_name_strips_every_json :
    list_all_snippets [("a.json.b.json", "c")] = [("a.b", "c")] ∧
    list_all_snippets [("notes.json", "k")] = [("notes", "k")] := ⟨rfl, rfl⟩

/-- C10: a successful save confirms with the snippet content interpolated
into the reply, not the snippet name: the reply is exactly the text
`Snippet <content> saved successfully` with the content between single
quotes, pinning the interpolated value to the content argument. -/
theorem save_confirmation_interpolates_content (store : BlobStore)
    (args : List (String × String)) (n c : String)
    (hn : lookupArg args "snippetname" = Except.ok n)
    (hc : lookupArg args "snippet" = Except.ok c) (h1 : n ≠ "") (h2 : c ≠ "") :
    (save_snippet store args).reply =
      Except.ok ("Snippet \x27" ++ c ++ "\x27 saved successfully") := by
  rw [save_snippet, hn, hc]
  dsimp only
  rw [if_neg h1, if_neg h2]

/-- Witness for C10 at a concrete save. -/
theorem save_confirmation_interpolates_content_witness :
    (save_snippet wStore [("snippetname", "n"), ("snippet", "hello")]).reply =
      Except.ok "Snippet \x27hello\x27 saved successfully" :=
  save_confirmation_interpolates_content wStore
    [("snippetname", "n"), ("snippet", "hello")] "n" "hello" (by rfl) (by rfl)
    (by decide) (by decide)

end McpSnippets
